import Mathlib

/-!
Shallow embedding of the SMM-panel backend (`backend/server.py`), covering the
Ledger & Order Engine: order placement (`create_order`), order queries
(`get_user_orders`, `get_order`), order status transition
(`update_order_status`), deposit request (`request_deposit`) and deposit
resolution (`approve_deposit`).

Modelling conventions:
* The MongoDB collections (`users`, `services`, `orders`, `transactions`) are
  lists of records; `find_one` on a key is first-match lookup, and
  `update_one` mutates the first matching record (`$inc` adds to a field,
  `$set` overwrites fields).  `update_one`'s `modified_count` is 1 exactly
  when the matched record actually changed.
* Monetary amounts (`balance`, `rate`, `amount`, `total_cost`) are Python
  floats in the source; they are modelled as exact rationals (`ℚ`).  Every
  concrete amount appearing in the claims (2.50, 1.25, 1.00, 0.00) is a
  dyadic rational, exactly representable as a binary float, so on those
  inputs the rational model computes the very same values as the source.
* Python `int` is modelled as `Int`.
* HTTPException outcomes are an `ApiError` inductive; each constructor is
  annotated with the status code / detail string it stands for.
* Each request handler becomes a function `DB → args → Except ApiError (DB × result)`;
  the serial (one-request-at-a-time) execution of a request sequence is the
  fold `runCalls`.  For the concurrency claim the handler body of
  `create_order` is split, exactly at its await boundaries, into the
  read/decide phase (`create_order_decide`) and the write phase
  (`create_order_commit`); the serial handler is their composition.
-/

/-- `class User` (server.py lines 36-43); `password_hash`, `email`, timestamps
are carried but never interpreted by the ledger logic. -/
structure User where
  id : String
  email : String
  name : String
  balance : ℚ
  role : String
  created_at : String
  deriving Repr, DecidableEq

/-- `class Service` (server.py lines 54-64). -/
structure Service where
  id : String
  platform : String
  service_type : String
  name : String
  rate : ℚ
  min_quantity : Int
  max_quantity : Int
  description : String
  created_at : String
  deriving Repr, DecidableEq

/-- `class Order` (server.py lines 75-85). -/
structure Order where
  id : String
  user_id : String
  service_id : String
  link : String
  quantity : Int
  total_cost : ℚ
  status : String
  created_at : String
  completed_at : Option String
  deriving Repr, DecidableEq

/-- `class Transaction` (server.py lines 92-99). -/
structure Transaction where
  id : String
  user_id : String
  amount : ℚ
  type : String
  status : String
  created_at : String
  deriving Repr, DecidableEq

/-- `class OrderCreate` (server.py lines 87-90): the request body of POST /orders. -/
structure OrderCreate where
  service_id : String
  link : String
  quantity : Int
  deriving Repr, DecidableEq

/-- The four MongoDB collections used by the ledger and order engine. -/
structure DB where
  users : List User
  services : List Service
  orders : List Order
  transactions : List Transaction
  deriving Repr, DecidableEq

/-- The HTTPException outcomes raised by the handlers, named as in the spec. -/
inductive ApiError where
  /-- 401 "User not found" (`get_current_user`, server.py line 127). -/
  | UserNotFound
  /-- 404 "Service not found" (server.py line 196). -/
  | ServiceNotFound
  /-- 400 "Quantity must be between ... and ..." (server.py lines 200-203). -/
  | QuantityOutOfRange
  /-- 400 "Insufficient balance" (server.py line 210). -/
  | InsufficientBalance
  /-- 404 "Order not found" (server.py lines 239, 286). -/
  | OrderNotFound
  /-- 400 "Invalid status" (server.py line 278). -/
  | InvalidStatus
  /-- 404 "Transaction not found" (server.py line 302). -/
  | TransactionNotFound
  /-- 400 "Transaction already processed" (server.py line 305). -/
  | AlreadyProcessed
  /-- 400 "Invalid action" (server.py line 298). -/
  | InvalidAction
  /-- 400 "Amount must be positive" (server.py line 251). -/
  | InvalidAmount
  deriving Repr, DecidableEq

/-- `db.users.find_one({"id": uid})`: first user whose `id` matches. -/
def findUser : List User → String → Option User
  | [], _ => none
  | u :: us, uid => if u.id = uid then some u else findUser us uid

/-- `db.services.find_one({"id": sid})`. -/
def findService : List Service → String → Option Service
  | [], _ => none
  | s :: ss, sid => if s.id = sid then some s else findService ss sid

/-- `db.orders.find_one({"id": oid})`. -/
def findOrderById : List Order → String → Option Order
  | [], _ => none
  | o :: os, oid => if o.id = oid then some o else findOrderById os oid

/-- `db.orders.find_one({"id": oid, "user_id": uid})` (server.py line 237). -/
def findOrderByIdAndUser : List Order → String → String → Option Order
  | [], _, _ => none
  | o :: os, oid, uid =>
      if o.id = oid ∧ o.user_id = uid then some o else findOrderByIdAndUser os oid uid

/-- `db.transactions.find_one({"id": tid})`. -/
def findTransaction : List Transaction → String → Option Transaction
  | [], _ => none
  | t :: ts, tid => if t.id = tid then some t else findTransaction ts tid

/-- `db.users.update_one({"id": uid}, {"$inc": {"balance": d}})`: adds `d` to
the balance of the first user with the given id (no-op when absent). -/
def incUserBalance : List User → String → ℚ → List User
  | [], _, _ => []
  | u :: us, uid, d =>
      if u.id = uid then { u with balance := u.balance + d } :: us
      else u :: incUserBalance us uid d

/-- `db.transactions.update_one({"id": tid}, {"$set": {"status": st}})`. -/
def setTransactionStatus : List Transaction → String → String → List Transaction
  | [], _, _ => []
  | t :: ts, tid, st =>
      if t.id = tid then { t with status := st } :: ts
      else t :: setTransactionStatus ts tid st

/-- Replace the first order with the given id by `o'` (the effect of
`db.orders.update_one({"id": oid}, {"$set": ...})` once the new record is known). -/
def replaceFirstOrder : List Order → String → Order → List Order
  | [], _, _ => []
  | o :: os, oid, o' =>
      if o.id = oid then o' :: os else o :: replaceFirstOrder os oid o'

/-- The user's balance as stored: the balance field of the first user with the
given id, when present. -/
def userBalance (db : DB) (uid : String) : Option ℚ :=
  (findUser db.users uid).map (fun u => u.balance)

/-- `total_cost = (order_data.quantity / 1000) * service['rate']`
(server.py line 206), with Python's true division. -/
def totalCost (quantity : Int) (rate : ℚ) : ℚ :=
  (quantity : ℚ) / 1000 * rate

/-- The read/decide phase of `create_order` (server.py lines 194-219): service
lookup, quantity validation, cost computation, balance check against the
authenticated user's record as read at decision time, and construction of the
Order record (status "pending", `completed_at` null).  No state is mutated. -/
def create_order_decide (db : DB) (current_user : User) (od : OrderCreate)
    (newId now : String) : Except ApiError (ℚ × Order) :=
  match findService db.services od.service_id with
  | none => .error .ServiceNotFound
  | some service =>
      if od.quantity < service.min_quantity ∨ od.quantity > service.max_quantity then
        .error .QuantityOutOfRange
      else
        let total_cost := totalCost od.quantity service.rate
        if current_user.balance < total_cost then
          .error .InsufficientBalance
        else
          .ok (total_cost,
            { id := newId
              user_id := current_user.id
              service_id := od.service_id
              link := od.link
              quantity := od.quantity
              total_cost := total_cost
              status := "pending"
              created_at := now
              completed_at := none })

/-- The write phase of `create_order` (server.py lines 221-227): the
unconditional `$inc` debit of the user's stored balance followed by the insert
of the order record. -/
def create_order_commit (db : DB) (uid : String) (total_cost : ℚ) (order : Order) : DB :=
  { db with
      users := incUserBalance db.users uid (-total_cost)
      orders := db.orders ++ [order] }

/-- POST /orders (`create_order`, server.py lines 191-228), executed serially:
the authenticated user is read fresh from storage (as `get_current_user`
does), the decide phase runs, and on success the commit phase runs against the
same state. -/
def create_order (db : DB) (user_id : String) (od : OrderCreate)
    (newId now : String) : Except ApiError (DB × Order) :=
  match findUser db.users user_id with
  | none => .error .UserNotFound
  | some current_user =>
      match create_order_decide db current_user od newId now with
      | .error e => .error e
      | .ok (total_cost, order) =>
          .ok (create_order_commit db current_user.id total_cost order, order)

/-- Descending insertion by `created_at` (the `.sort("created_at", -1)` of
server.py line 232; string timestamps compare lexicographically). -/
def insertByCreatedAtDesc (o : Order) : List Order → List Order
  | [] => [o]
  | x :: xs =>
      if x.created_at ≤ o.created_at then o :: x :: xs
      else x :: insertByCreatedAtDesc o xs

/-- Sort orders newest-first by `created_at`. -/
def sortByCreatedAtDesc : List Order → List Order
  | [] => []
  | x :: xs => insertByCreatedAtDesc x (sortByCreatedAtDesc xs)

/-- GET /orders (`get_user_orders`, server.py lines 230-233): the requesting
user's own orders, newest first. -/
def get_user_orders (db : DB) (user_id : String) : List Order :=
  sortByCreatedAtDesc (db.orders.filter (fun o => o.user_id = user_id))

/-- GET /orders/{order_id} (`get_order`, server.py lines 235-240): lookup by
order id AND requesting user id. -/
def get_order (db : DB) (order_id : String) (user_id : String) : Except ApiError Order :=
  match findOrderByIdAndUser db.orders order_id user_id with
  | none => .error .OrderNotFound
  | some o => .ok o

/-- POST /user/deposit (`request_deposit`, server.py lines 248-261). -/
def request_deposit (db : DB) (user_id : String) (amount : ℚ)
    (newId now : String) : Except ApiError (DB × Transaction) :=
  if amount ≤ 0 then .error .InvalidAmount
  else
    let t : Transaction :=
      { id := newId, user_id := user_id, amount := amount
        type := "deposit", status := "pending", created_at := now }
    .ok ({ db with transactions := db.transactions ++ [t] }, t)

/-- The record written by `{"$set": update_data}` of
`update_order_status` (server.py lines 280-284): status is overwritten, and
`completed_at` is stamped with the current time exactly when the new status is
"completed". -/
def applyStatusUpdate (o : Order) (st now : String) : Order :=
  if st = "completed" then { o with status := st, completed_at := some now }
  else { o with status := st }

/-- PUT /admin/orders/{order_id}/status (`update_order_status`, server.py
lines 275-288).  The handler raises 404 when `update_one` reports
`modified_count == 0`; that count is 0 both when no order matches the id and
when the first matching order is left bit-for-bit unchanged by the `$set`. -/
def update_order_status (db : DB) (order_id status now : String) :
    Except ApiError DB :=
  if ¬(status = "pending" ∨ status = "processing" ∨ status = "completed" ∨
        status = "cancelled") then
    .error .InvalidStatus
  else
    match findOrderById db.orders order_id with
    | none => .error .OrderNotFound
    | some o =>
        let o' := applyStatusUpdate o status now
        if o' = o then .error .OrderNotFound
        else .ok { db with orders := replaceFirstOrder db.orders order_id o' }

/-- PUT /admin/deposits/{transaction_id} (`approve_deposit`, server.py lines
295-317): action validation, transaction lookup, the pending guard, the status
`$set`, and on approval the `$inc` credit of the owning user's balance. -/
def approve_deposit (db : DB) (transaction_id action : String) :
    Except ApiError (DB × String) :=
  if ¬(action = "approve" ∨ action = "reject") then .error .InvalidAction
  else
    match findTransaction db.transactions transaction_id with
    | none => .error .TransactionNotFound
    | some transaction =>
        if transaction.status ≠ "pending" then .error .AlreadyProcessed
        else
          let new_status := if action = "approve" then "approved" else "rejected"
          let db₁ : DB :=
            { db with transactions :=
                setTransactionStatus db.transactions transaction_id new_status }
          let db₂ : DB :=
            if action = "approve" then
              { db₁ with users :=
                  incUserBalance db₁.users transaction.user_id transaction.amount }
            else db₁
          .ok (db₂, new_status)

/-- One serially executed API request against the ledger and order engine. -/
inductive Call where
  | createOrder (user_id : String) (od : OrderCreate) (newId now : String)
  | requestDeposit (user_id : String) (amount : ℚ) (newId now : String)
  | resolveDeposit (transaction_id action : String)
  | setOrderStatus (order_id status now : String)
  deriving Repr, DecidableEq

/-- Serial execution of one request: a handler that raises an HTTPException
leaves the stored state exactly as it was. -/
def step (db : DB) : Call → DB
  | .createOrder uid od nid now =>
      match create_order db uid od nid now with
      | .ok (db', _) => db'
      | .error _ => db
  | .requestDeposit uid amt nid now =>
      match request_deposit db uid amt nid now with
      | .ok (db', _) => db'
      | .error _ => db
  | .resolveDeposit tid act =>
      match approve_deposit db tid act with
      | .ok (db', _) => db'
      | .error _ => db
  | .setOrderStatus oid st now =>
      match update_order_status db oid st now with
      | .ok db' => db'
      | .error _ => db

/-- Serial execution of a request sequence. -/
def runCalls (db : DB) (cs : List Call) : DB :=
  cs.foldl step db

/-- The deposit amounts the given call credits to user `uid`: the recorded
amount of the resolved transaction when the call is a successful
`resolveDeposit` with action "approve" on a transaction owned by `uid`. -/
def callCredits (db : DB) (uid : String) : Call → List ℚ
  | .resolveDeposit tid act =>
      match approve_deposit db tid act with
      | .ok _ =>
          if act = "approve" then
            match findTransaction db.transactions tid with
            | some t => if t.user_id = uid then [t.amount] else []
            | none => []
          else []
      | .error _ => []
  | _ => []

/-- The order costs the given call debits from user `uid`: the `total_cost` of
the returned order when the call is a successfully placed order owned by `uid`. -/
def callDebits (db : DB) (uid : String) : Call → List ℚ
  | .createOrder uid' od nid now =>
      match create_order db uid' od nid now with
      | .ok (_, o) => if o.user_id = uid then [o.total_cost] else []
      | .error _ => []
  | _ => []

/-- Serial execution that also collects, for user `uid`, the approved deposit
amounts and the placed orders' total costs, in order. -/
def runAudit (uid : String) : DB → List Call → DB × List ℚ × List ℚ
  | db, [] => (db, [], [])
  | db, c :: cs =>
      let r := runAudit uid (step db c) cs
      (r.1, callCredits db uid c ++ r.2.1, callDebits db uid c ++ r.2.2)

/-! ### First-match lookup / first-match update lemmas -/

theorem findUser_id {us : List User} {uid : String} {u : User}
    (h : findUser us uid = some u) : u.id = uid := by
  induction us with
  | nil => simp [findUser] at h
  | cons v vs ih =>
      by_cases hv : v.id = uid
      · simp [findUser, hv] at h; rw [← h]; exact hv
      · simp [findUser, hv] at h; exact ih h

theorem findUser_incUserBalance_self (us : List User) (uid : String) (d : ℚ) :
    findUser (incUserBalance us uid d) uid =
      (findUser us uid).map (fun u => { u with balance := u.balance + d }) := by
  induction us with
  | nil => simp [findUser, incUserBalance]
  | cons v vs ih =>
      by_cases hv : v.id = uid
      · simp [findUser, incUserBalance, hv]
      · simp [findUser, incUserBalance, hv, ih]

theorem findUser_incUserBalance_ne (us : List User) {uid v : String} (d : ℚ)
    (h : uid ≠ v) : findUser (incUserBalance us v d) uid = findUser us uid := by
  induction us with
  | nil => simp [findUser, incUserBalance]
  | cons w ws ih =>
      by_cases hw : w.id = v
      · simp [findUser, incUserBalance, hw, Ne.symm h]
      · by_cases hu : w.id = uid
        · simp [findUser, incUserBalance, hw, hu, h]
        · simp [findUser, incUserBalance, hw, hu, ih]

theorem findTransaction_setStatus_self (ts : List Transaction) (tid st : String) :
    findTransaction (setTransactionStatus ts tid st) tid =
      (findTransaction ts tid).map (fun t => { t with status := st }) := by
  induction ts with
  | nil => simp [findTransaction, setTransactionStatus]
  | cons t ts ih =>
      by_cases ht : t.id = tid
      · simp [findTransaction, setTransactionStatus, ht]
      · simp [findTransaction, setTransactionStatus, ht, ih]

/-- Success characterization of `create_order`: a successful placement means
the user and service were found, the quantity was within bounds, the balance
(read at decision time) covered the computed cost, and the new state is the
commit of the debit and the order insert. -/
theorem create_order_ok_elim {db : DB} {uid : String} {od : OrderCreate}
    {nid now : String} {db' : DB} {o : Order}
    (hok : create_order db uid od nid now = .ok (db', o)) :
    ∃ u s, findUser db.users uid = some u ∧
      findService db.services od.service_id = some s ∧
      s.min_quantity ≤ od.quantity ∧ od.quantity ≤ s.max_quantity ∧
      totalCost od.quantity s.rate ≤ u.balance ∧
      o.user_id = u.id ∧ o.total_cost = totalCost od.quantity s.rate ∧
      db' = create_order_commit db u.id (totalCost od.quantity s.rate) o := by
  cases hfu : findUser db.users uid with
  | none => simp [create_order, hfu] at hok
  | some u =>
      cases hd : create_order_decide db u od nid now with
      | error e => simp [create_order, hfu, hd] at hok
      | ok p =>
          obtain ⟨tc, ord⟩ := p
          simp only [create_order, hfu, hd] at hok
          rw [Except.ok.injEq, Prod.mk.injEq] at hok
          obtain ⟨hdb', ho⟩ := hok
          cases hs : findService db.services od.service_id with
          | none => simp [create_order_decide, hs] at hd
          | some s =>
              by_cases hq : od.quantity < s.min_quantity ∨ od.quantity > s.max_quantity
              · simp [create_order_decide, hs, hq] at hd
              · by_cases hb : u.balance < totalCost od.quantity s.rate
                · simp [create_order_decide, hs, hq, hb] at hd
                · simp only [create_order_decide, hs, if_neg hq, if_neg hb] at hd
                  rw [Except.ok.injEq, Prod.mk.injEq] at hd
                  obtain ⟨htc, hord⟩ := hd
                  subst htc
                  subst hord
                  subst ho
                  subst hdb'
                  push_neg at hq hb
                  exact ⟨u, s, rfl, rfl, hq.1, hq.2, hb, rfl, rfl, rfl⟩

/-! ### Concrete sample data (the spec's example scenario: rate 2.50,
min 100, max 10000, order quantity 500, cost 1.25) -/

/-- A user holding balance 1.25 (exactly the example order's cost). -/
def richUser : User :=
  { id := "u1", email := "u1@example.com", name := "U One", balance := 5/4
    role := "user", created_at := "t0" }

/-- A user holding balance 1.00 (short of the example order's cost). -/
def poorUser : User :=
  { id := "u2", email := "u2@example.com", name := "U Two", balance := 1
    role := "user", created_at := "t0" }

/-- The example service: rate 2.50 per 1000, quantity bounds [100, 10000]. -/
def sampleService : Service :=
  { id := "s1", platform := "instagram", service_type := "followers"
    name := "IG Followers", rate := 5/2, min_quantity := 100
    max_quantity := 10000, description := "d", created_at := "t0" }

/-- State holding both example users and the example service. -/
def sampleDB : DB :=
  { users := [richUser, poorUser], services := [sampleService]
    orders := [], transactions := [] }

/-- The example order request: quantity 500 of service s1. -/
def sampleOrderCreate : OrderCreate :=
  { service_id := "s1", link := "https://instagram.com/p/x", quantity := 500 }

/-- An order request whose quantity 50 is below the service minimum 100. -/
def tooFewOrderCreate : OrderCreate :=
  { service_id := "s1", link := "https://instagram.com/p/x", quantity := 50 }

/-! ### C2, C3, C4 -/

/-- C2: starting from any state in which the user's stored balance is
non-negative, a successful `create_order` (serial execution) leaves the owning
user's stored balance still non-negative — the decision-time check
`balance < total_cost → 400` means the committed `$inc` can never push a
non-negative balance below zero when requests are serial. -/
theorem create_order_keeps_balance_nonneg (db : DB) (uid : String)
    (od : OrderCreate) (nid now : String) (db' : DB) (o : Order) (b : ℚ)
    (hb : userBalance db uid = some b) (hpos : 0 ≤ b)
    (hok : create_order db uid od nid now = .ok (db', o)) :
    ∃ b', userBalance db' uid = some b' ∧ 0 ≤ b' := by
  obtain ⟨u, s, hfu, hs, hmin, hmax, hcost, huid, hocost, hdb'⟩ := create_order_ok_elim hok
  have hub : u.balance = b := by
    unfold userBalance at hb; rw [hfu] at hb; simpa using hb
  have hid : u.id = uid := findUser_id hfu
  refine ⟨b - totalCost od.quantity s.rate, ?_, ?_⟩
  · rw [hdb']
    unfold userBalance create_order_commit
    rw [hid, findUser_incUserBalance_self, hfu]
    simp [hub, sub_eq_add_neg]
  · rw [hub] at hcost
    linarith

/-- The order record produced by the example placement. -/
def orderPlaced : Order :=
  { id := "o1", user_id := "u1", service_id := "s1"
    link := "https://instagram.com/p/x", quantity := 500, total_cost := 5/4
    status := "pending", created_at := "t1", completed_at := none }

/-- The state after the rich user places the example order: balance debited to
0, the order stored. -/
def dbAfterOrder : DB :=
  { users := [{ richUser with balance := 0 }, poorUser]
    services := [sampleService], orders := [orderPlaced], transactions := [] }

/-- Witness for C2 at the example scenario: the rich user's balance stays
non-negative after the order. -/
theorem create_order_keeps_balance_nonneg_witness :
    ∃ b', userBalance dbAfterOrder "u1" = some b' ∧ 0 ≤ b' :=
  create_order_keeps_balance_nonneg sampleDB "u1" sampleOrderCreate "o1" "t1"
    dbAfterOrder orderPlaced (5/4) (by rfl) (by norm_num)
    (by norm_num [create_order, create_order_decide, create_order_commit,
      findUser, findService, incUserBalance, sampleDB, sampleOrderCreate,
      sampleService, richUser, poorUser, totalCost, dbAfterOrder, orderPlaced])

/-- C3: when the service exists, the quantity is within bounds, but the
decision-time balance is strictly below the computed cost, `create_order`
raises InsufficientBalance and mutates nothing. -/
theorem create_order_insufficient_balance_no_mutation (db : DB) (uid : String)
    (od : OrderCreate) (nid now : String) (u : User) (s : Service)
    (hu : findUser db.users uid = some u)
    (hs : findService db.services od.service_id = some s)
    (hmin : s.min_quantity ≤ od.quantity) (hmax : od.quantity ≤ s.max_quantity)
    (hb : u.balance < totalCost od.quantity s.rate) :
    create_order db uid od nid now = .error .InsufficientBalance ∧
      step db (.createOrder uid od nid now) = db := by
  have hq : ¬(od.quantity < s.min_quantity ∨ od.quantity > s.max_quantity) := by
    push_neg; exact ⟨hmin, hmax⟩
  have herr : create_order db uid od nid now = .error .InsufficientBalance := by
    simp [create_order, create_order_decide, hu, hs, hq, hb]
  exact ⟨herr, by simp [step, herr]⟩

/-- Witness for C3: the poor user (balance 1.00) is rejected for the 1.25
order and the state is untouched. -/
theorem create_order_insufficient_balance_no_mutation_witness :
    create_order sampleDB "u2" sampleOrderCreate "o1" "t1" =
        .error .InsufficientBalance ∧
      step sampleDB (.createOrder "u2" sampleOrderCreate "o1" "t1") = sampleDB :=
  create_order_insufficient_balance_no_mutation sampleDB "u2" sampleOrderCreate
    "o1" "t1" poorUser sampleService (by rfl) (by rfl) (by decide)
    (by decide) (by norm_num [poorUser, sampleOrderCreate, sampleService, totalCost])

/-- C4: when the service exists but the requested quantity is outside
[min_quantity, max_quantity], `create_order` raises QuantityOutOfRange and
mutates nothing (no balance change, no recorded order). -/
theorem create_order_quantity_out_of_range_no_mutation (db : DB) (uid : String)
    (od : OrderCreate) (nid now : String) (u : User) (s : Service)
    (hu : findUser db.users uid = some u)
    (hs : findService db.services od.service_id = some s)
    (hq : od.quantity < s.min_quantity ∨ od.quantity > s.max_quantity) :
    create_order db uid od nid now = .error .QuantityOutOfRange ∧
      step db (.createOrder uid od nid now) = db := by
  have herr : create_order db uid od nid now = .error .QuantityOutOfRange := by
    simp [create_order, create_order_decide, hu, hs, hq]
  exact ⟨herr, by simp [step, herr]⟩

/-- Witness for C4: quantity 50 is below the minimum 100 and is rejected with
no mutation. -/
theorem create_order_quantity_out_of_range_no_mutation_witness :
    create_order sampleDB "u1" tooFewOrderCreate "o1" "t1" =
        .error .QuantityOutOfRange ∧
      step sampleDB (.createOrder "u1" tooFewOrderCreate "o1" "t1") = sampleDB :=
  create_order_quantity_out_of_range_no_mutation sampleDB "u1" tooFewOrderCreate
    "o1" "t1" richUser sampleService (by rfl) (by rfl) (by decide)

/-! ### C5: the example scenario, with exact arithmetic -/

/-- C5: `total_cost = (quantity / 1000) * rate` with the full non-integer
quotient: for rate 2.50 and bounds [100, 10000], quantity 500 costs exactly
1.25; the user with balance 1.00 is rejected with InsufficientBalance; the
user with balance exactly 1.25 succeeds and ends with balance exactly 0.
(The amounts 2.5, 1.25, 1 and 0 are dyadic, so the rational model computes
the same values as the source's binary floats.) -/
theorem example_scenario_exact_costs :
    sampleService.rate = 2.5 ∧ sampleService.min_quantity = 100 ∧
    sampleService.max_quantity = 10000 ∧ sampleOrderCreate.quantity = 500 ∧
    totalCost sampleOrderCreate.quantity sampleService.rate = 1.25 ∧
    userBalance sampleDB "u2" = some 1 ∧
    create_order sampleDB "u2" sampleOrderCreate "o1" "t1" =
      .error .InsufficientBalance ∧
    userBalance sampleDB "u1" = some 1.25 ∧
    create_order sampleDB "u1" sampleOrderCreate "o1" "t1" =
      .ok (dbAfterOrder, orderPlaced) ∧
    orderPlaced.total_cost = 1.25 ∧
    userBalance dbAfterOrder "u1" = some 0 := by
  refine ⟨by norm_num [sampleService], rfl, rfl, rfl,
    by norm_num [totalCost, sampleOrderCreate, sampleService],
    by rfl, ?_,
    by norm_num [userBalance, findUser, sampleDB, richUser],
    ?_,
    by norm_num [orderPlaced],
    by rfl⟩
  · simp [create_order, create_order_decide, findUser, findService,
      sampleDB, sampleOrderCreate, sampleService, richUser, poorUser, totalCost]
    norm_num
  · norm_num [create_order, create_order_decide, create_order_commit,
      findUser, findService, incUserBalance, sampleDB, sampleOrderCreate,
      sampleService, richUser, poorUser, totalCost, dbAfterOrder, orderPlaced]

/-! ### C10: the check-then-act race between two placements by one user -/

/-- The order record produced by the second racing placement. -/
def orderPlaced2 : Order :=
  { orderPlaced with id := "o2", created_at := "t2" }

/-- The state left by the interleaving in which both placements by user u1
read their `current_user` record from `sampleDB` (each seeing balance 1.25),
both pass the decide phase, and then both unconditional `$inc` commits run. -/
def dbAfterRace : DB :=
  create_order_commit
    (create_order_commit sampleDB "u1"
      (totalCost sampleOrderCreate.quantity sampleService.rate) orderPlaced)
    "u1" (totalCost sampleOrderCreate.quantity sampleService.rate) orderPlaced2

/-- C10: under the cooperative async model the sequence from the balance read
to the plain unconditional `$inc` is not atomic: both placements' decide
phases, run against the same pre-state, pass the balance check, and after both
commits the user's stored balance is -1.25 < 0, with both orders recorded. -/
theorem concurrent_orders_overdraw_balance :
    findUser sampleDB.users "u1" = some richUser ∧
    create_order_decide sampleDB richUser sampleOrderCreate "o1" "t1" =
      .ok (totalCost sampleOrderCreate.quantity sampleService.rate, orderPlaced) ∧
    create_order_decide sampleDB richUser sampleOrderCreate "o2" "t2" =
      .ok (totalCost sampleOrderCreate.quantity sampleService.rate, orderPlaced2) ∧
    userBalance dbAfterRace "u1" = some (-(5/4)) ∧ (-(5/4) : ℚ) < 0 ∧
    orderPlaced ∈ dbAfterRace.orders ∧ orderPlaced2 ∈ dbAfterRace.orders := by
  refine ⟨rfl, ?_, ?_, ?_, by norm_num, ?_, ?_⟩
  · norm_num [create_order_decide, findService, sampleDB, sampleOrderCreate,
      sampleService, richUser, totalCost, orderPlaced]
  · norm_num [create_order_decide, findService, sampleDB, sampleOrderCreate,
      sampleService, richUser, totalCost, orderPlaced2, orderPlaced]
  · norm_num [userBalance, findUser, dbAfterRace, create_order_commit,
      incUserBalance, sampleDB, richUser, totalCost, sampleOrderCreate,
      sampleService]
  · simp [dbAfterRace, create_order_commit, sampleDB]
  · simp [dbAfterRace, create_order_commit, sampleDB]

/-! ### C8: order queries never reveal another user's orders -/

theorem mem_insertByCreatedAtDesc {o x : Order} {l : List Order} :
    o ∈ insertByCreatedAtDesc x l ↔ o = x ∨ o ∈ l := by
  induction l with
  | nil => simp [insertByCreatedAtDesc]
  | cons y ys ih =>
      by_cases h : y.created_at ≤ x.created_at
      · simp [insertByCreatedAtDesc, h]
      · simp [insertByCreatedAtDesc, h, ih]
        tauto

theorem mem_sortByCreatedAtDesc {o : Order} {l : List Order} :
    o ∈ sortByCreatedAtDesc l ↔ o ∈ l := by
  induction l with
  | nil => simp [sortByCreatedAtDesc]
  | cons x xs ih => simp [sortByCreatedAtDesc, mem_insertByCreatedAtDesc, ih]

theorem findOrderByIdAndUser_some {os : List Order} {oid uid : String} {o : Order}
    (h : findOrderByIdAndUser os oid uid = some o) :
    o ∈ os ∧ o.id = oid ∧ o.user_id = uid := by
  induction os with
  | nil => simp [findOrderByIdAndUser] at h
  | cons x xs ih =>
      simp only [findOrderByIdAndUser] at h
      by_cases hx : x.id = oid ∧ x.user_id = uid
      · rw [if_pos hx] at h
        injection h with h
        subst h
        exact ⟨List.mem_cons_self x xs, hx.1, hx.2⟩
      · rw [if_neg hx] at h
        obtain ⟨hm, h1, h2⟩ := ih h
        exact ⟨List.mem_cons_of_mem _ hm, h1, h2⟩

/-- C8: the order listing invoked by user A only contains orders owned by A
(so never one of B's, for any B ≠ A), and the single-order lookup filters by
both order id and requesting user id, so a request by A for an id all of whose
stored orders belong to B fails with OrderNotFound. -/
theorem order_queries_never_reveal_other_users_orders (db : DB) (A B : String)
    (hAB : A ≠ B) :
    (∀ o ∈ get_user_orders db A, o.user_id = A ∧ o.user_id ≠ B) ∧
    (∀ oid, (∀ o ∈ db.orders, o.id = oid → o.user_id = B) →
      get_order db oid A = .error .OrderNotFound) := by
  constructor
  · intro o ho
    have hmem : o ∈ db.orders.filter (fun o => o.user_id = A) := by
      rw [get_user_orders, mem_sortByCreatedAtDesc] at ho
      exact ho
    have hA : o.user_id = A := by
      have := (List.mem_filter.mp hmem).2
      simpa using this
    exact ⟨hA, by rw [hA]; exact hAB⟩
  · intro oid hB
    cases hf : findOrderByIdAndUser db.orders oid A with
    | none => simp [get_order, hf]
    | some o =>
        obtain ⟨hm, hid, huid⟩ := findOrderByIdAndUser_some hf
        exact absurd (huid ▸ hB o hm hid : A = B) hAB

/-- Witness for C8: in the post-order state, user u2's listing contains none
of u1's orders, and u2's lookup of u1's order id "o1" is OrderNotFound. -/
theorem order_queries_never_reveal_other_users_orders_witness :
    (∀ o ∈ get_user_orders dbAfterOrder "u2", o.user_id = "u2" ∧ o.user_id ≠ "u1") ∧
    (∀ oid, (∀ o ∈ dbAfterOrder.orders, o.id = oid → o.user_id = "u1") →
      get_order dbAfterOrder oid "u2" = .error .OrderNotFound) :=
  order_queries_never_reveal_other_users_orders dbAfterOrder "u2" "u1" (by decide)

/-! ### C6: deposit resolution happens exactly once -/

/-- C6: on a pending transaction, approve sets status "approved" and credits
the owning user's balance by the recorded amount, reject sets status
"rejected" and leaves all balances alone; on a transaction whose status is not
pending the call fails AlreadyProcessed; hence a second resolution of the same
transaction id fails AlreadyProcessed and leaves both the balance and the
transaction unchanged (the erroring request mutates nothing). -/
theorem resolveDeposit_resolves_exactly_once (db : DB) (tid : String)
    (t : Transaction) (ht : findTransaction db.transactions tid = some t) :
    (∀ act, (act = "approve" ∨ act = "reject") → t.status ≠ "pending" →
        approve_deposit db tid act = .error .AlreadyProcessed ∧
        step db (.resolveDeposit tid act) = db) ∧
    (t.status = "pending" →
      (∃ db₁, approve_deposit db tid "approve" = .ok (db₁, "approved") ∧
        findTransaction db₁.transactions tid = some { t with status := "approved" } ∧
        userBalance db₁ t.user_id =
          (userBalance db t.user_id).map (fun b => b + t.amount) ∧
        approve_deposit db₁ tid "approve" = .error .AlreadyProcessed ∧
        approve_deposit db₁ tid "reject" = .error .AlreadyProcessed ∧
        step db₁ (.resolveDeposit tid "approve") = db₁) ∧
      (∃ db₂, approve_deposit db tid "reject" = .ok (db₂, "rejected") ∧
        findTransaction db₂.transactions tid = some { t with status := "rejected" } ∧
        db₂.users = db.users ∧
        approve_deposit db₂ tid "approve" = .error .AlreadyProcessed ∧
        step db₂ (.resolveDeposit tid "approve") = db₂)) := by
  constructor
  · intro act hact hstat
    have herr : approve_deposit db tid act = .error .AlreadyProcessed := by
      rcases hact with rfl | rfl <;> simp [approve_deposit, ht, hstat]
    exact ⟨herr, by simp [step, herr]⟩
  · intro hp
    have hnp : ¬t.status ≠ "pending" := not_not_intro hp
    constructor
    · refine ⟨{ db with
          users := incUserBalance db.users t.user_id t.amount
          transactions := setTransactionStatus db.transactions tid "approved" },
        ?_, ?_, ?_, ?_, ?_, ?_⟩
      · simp [approve_deposit, ht, hnp]
      · simp [findTransaction_setStatus_self, ht]
      · simp only [userBalance, findUser_incUserBalance_self]
        cases findUser db.users t.user_id <;> simp
      · simp [approve_deposit, findTransaction_setStatus_self, ht]
      · simp [approve_deposit, findTransaction_setStatus_self, ht]
      · have : approve_deposit { db with
            users := incUserBalance db.users t.user_id t.amount
            transactions := setTransactionStatus db.transactions tid "approved" }
            tid "approve" = .error .AlreadyProcessed := by
          simp [approve_deposit, findTransaction_setStatus_self, ht]
        simp [step, this]
    · refine ⟨{ db with
          transactions := setTransactionStatus db.transactions tid "rejected" },
        ?_, ?_, rfl, ?_, ?_⟩
      · simp [approve_deposit, ht, hnp]
      · simp [findTransaction_setStatus_self, ht]
      · simp [approve_deposit, findTransaction_setStatus_self, ht]
      · have : approve_deposit { db with
            transactions := setTransactionStatus db.transactions tid "rejected" }
            tid "approve" = .error .AlreadyProcessed := by
          simp [approve_deposit, findTransaction_setStatus_self, ht]
        simp [step, this]

/-- A pending deposit transaction of amount 2.5 owned by user u1. -/
def pendingTxn : Transaction :=
  { id := "tx1", user_id := "u1", amount := 5/2, type := "deposit"
    status := "pending", created_at := "t0" }

/-- A state holding the pending transaction. -/
def dbWithTxn : DB :=
  { users := [richUser, poorUser], services := [sampleService]
    orders := [], transactions := [pendingTxn] }

/-- Witness for C6 at the pending transaction tx1. -/
theorem resolveDeposit_resolves_exactly_once_witness :
    (∀ act, (act = "approve" ∨ act = "reject") → pendingTxn.status ≠ "pending" →
        approve_deposit dbWithTxn "tx1" act = .error .AlreadyProcessed ∧
        step dbWithTxn (.resolveDeposit "tx1" act) = dbWithTxn) ∧
    (pendingTxn.status = "pending" →
      (∃ db₁, approve_deposit dbWithTxn "tx1" "approve" = .ok (db₁, "approved") ∧
        findTransaction db₁.transactions "tx1" =
          some { pendingTxn with status := "approved" } ∧
        userBalance db₁ pendingTxn.user_id =
          (userBalance dbWithTxn pendingTxn.user_id).map
            (fun b => b + pendingTxn.amount) ∧
        approve_deposit db₁ "tx1" "approve" = .error .AlreadyProcessed ∧
        approve_deposit db₁ "tx1" "reject" = .error .AlreadyProcessed ∧
        step db₁ (.resolveDeposit "tx1" "approve") = db₁) ∧
      (∃ db₂, approve_deposit dbWithTxn "tx1" "reject" = .ok (db₂, "rejected") ∧
        findTransaction db₂.transactions "tx1" =
          some { pendingTxn with status := "rejected" } ∧
        db₂.users = dbWithTxn.users ∧
        approve_deposit db₂ "tx1" "approve" = .error .AlreadyProcessed ∧
        step db₂ (.resolveDeposit "tx1" "approve") = db₂)) :=
  resolveDeposit_resolves_exactly_once dbWithTxn "tx1" pendingTxn (by rfl)

/-! ### C7: when does setOrderStatus report OrderNotFound? -/

/-- A stored order with status "pending" (cost 0 keeps it arithmetic-free). -/
def o9 : Order :=
  { id := "o1", user_id := "u1", service_id := "s1", link := "l"
    quantity := 100, total_cost := 0, status := "pending"
    created_at := "t0", completed_at := none }

/-- A state whose only order is `o9`. -/
def dbC9 : DB := { users := [], services := [], orders := [o9], transactions := [] }

/-- C7 counterexample: order "o1" exists (status "pending"), yet
`update_order_status` with the legal target status "pending" reports
OrderNotFound, because `update_one` matched the order but modified nothing
(`modified_count == 0`), which the handler conflates with absence. -/
theorem setOrderStatus_notfound_despite_existing_order :
    (∃ o ∈ dbC9.orders, o.id = "o1") ∧
    update_order_status dbC9 "o1" "pending" "t9" = .error .OrderNotFound := by
  constructor
  · exact ⟨o9, by simp [dbC9], rfl⟩
  · simp [update_order_status, findOrderById, dbC9, o9, applyStatusUpdate]

/-- C7 (amended): with a legal target status, setOrderStatus fails
OrderNotFound exactly when the `$set` modifies no stored document — either no
order has the given id, or the first order with that id is left unchanged by
the update (it already has the target status, and, for "completed", the
identical completed_at stamp); whenever the first matching order would
actually change, the call succeeds. -/
theorem setOrderStatus_notfound_iff_no_modification (db : DB)
    (oid st now : String)
    (hleg : st = "pending" ∨ st = "processing" ∨ st = "completed" ∨
      st = "cancelled") :
    (update_order_status db oid st now = .error .OrderNotFound ↔
      ∀ o, findOrderById db.orders oid = some o → applyStatusUpdate o st now = o) ∧
    ((∃ o, findOrderById db.orders oid = some o ∧ applyStatusUpdate o st now ≠ o) →
      ∃ db', update_order_status db oid st now = .ok db') := by
  have hcond : ¬¬(st = "pending" ∨ st = "processing" ∨ st = "completed" ∨
      st = "cancelled") := not_not_intro hleg
  constructor
  · constructor
    · intro herr o hf
      by_cases ho : applyStatusUpdate o st now = o
      · exact ho
      · simp only [update_order_status] at herr
        rw [if_neg hcond] at herr
        rw [hf] at herr
        simp [ho] at herr
    · intro hall
      simp only [update_order_status]
      rw [if_neg hcond]
      cases hf : findOrderById db.orders oid with
      | none => simp
      | some o => simp [hall o hf]
  · rintro ⟨o, hf, hne⟩
    refine ⟨{ db with
        orders := replaceFirstOrder db.orders oid (applyStatusUpdate o st now) },
      ?_⟩
    simp only [update_order_status]
    rw [if_neg hcond]
    rw [hf]
    simp [hne]

/-- Witness for the amended C7 at the concrete state `dbC9` and the legal
status "processing". -/
theorem setOrderStatus_notfound_iff_no_modification_witness :
    (update_order_status dbC9 "o1" "processing" "t9" = .error .OrderNotFound ↔
      ∀ o, findOrderById dbC9.orders "o1" = some o →
        applyStatusUpdate o "processing" "t9" = o) ∧
    ((∃ o, findOrderById dbC9.orders "o1" = some o ∧
        applyStatusUpdate o "processing" "t9" ≠ o) →
      ∃ db', update_order_status dbC9 "o1" "processing" "t9" = .ok db') :=
  setOrderStatus_notfound_iff_no_modification dbC9 "o1" "processing" "t9"
    (Or.inr (Or.inl rfl))

/-! ### C9: setOrderStatus mutates only the matched order's status fields -/

theorem applyStatusUpdate_fields (o : Order) (st now : String) :
    (applyStatusUpdate o st now).id = o.id ∧
    (applyStatusUpdate o st now).user_id = o.user_id ∧
    (applyStatusUpdate o st now).service_id = o.service_id ∧
    (applyStatusUpdate o st now).link = o.link ∧
    (applyStatusUpdate o st now).quantity = o.quantity ∧
    (applyStatusUpdate o st now).total_cost = o.total_cost ∧
    (applyStatusUpdate o st now).created_at = o.created_at ∧
    (applyStatusUpdate o st now).status = st ∧
    (st = "completed" → (applyStatusUpdate o st now).completed_at = some now) ∧
    (st ≠ "completed" → (applyStatusUpdate o st now).completed_at = o.completed_at) := by
  by_cases hc : st = "completed" <;> simp [applyStatusUpdate, hc]

theorem mem_replaceFirstOrder_of_ne {os : List Order} {oid : String}
    {o' p : Order} (hp : p ∈ os) (hne : p.id ≠ oid) :
    p ∈ replaceFirstOrder os oid o' := by
  induction os with
  | nil => cases hp
  | cons x xs ih =>
      by_cases hx : x.id = oid
      · simp only [replaceFirstOrder, if_pos hx]
        rcases List.mem_cons.mp hp with rfl | hmem
        · exact absurd hx hne
        · exact List.mem_cons_of_mem _ hmem
      · simp only [replaceFirstOrder, if_neg hx]
        rcases List.mem_cons.mp hp with rfl | hmem
        · exact List.mem_cons_self _ _
        · exact List.mem_cons_of_mem _ (ih hmem)

/-- C9: a successful setOrderStatus leaves users (hence every balance — in
particular no refund when cancelling), services and transactions untouched;
the stored orders change only by replacing the first order carrying the id
with a record that differs from it in `status` (set to the target) and, only
when the target is "completed", in `completed_at` (stamped with the current
time); every other field is preserved, a non-"completed" target leaves any
previously stamped completed_at in place, and every order with a different id
is still stored. -/
theorem setOrderStatus_frame (db db' : DB) (oid st now : String)
    (hok : update_order_status db oid st now = .ok db') :
    db'.users = db.users ∧ db'.services = db.services ∧
    db'.transactions = db.transactions ∧
    (∀ uid, userBalance db' uid = userBalance db uid) ∧
    ∃ o, findOrderById db.orders oid = some o ∧
      db'.orders = replaceFirstOrder db.orders oid (applyStatusUpdate o st now) ∧
      (applyStatusUpdate o st now).id = o.id ∧
      (applyStatusUpdate o st now).user_id = o.user_id ∧
      (applyStatusUpdate o st now).service_id = o.service_id ∧
      (applyStatusUpdate o st now).link = o.link ∧
      (applyStatusUpdate o st now).quantity = o.quantity ∧
      (applyStatusUpdate o st now).total_cost = o.total_cost ∧
      (applyStatusUpdate o st now).created_at = o.created_at ∧
      (applyStatusUpdate o st now).status = st ∧
      (st = "completed" → (applyStatusUpdate o st now).completed_at = some now) ∧
      (st ≠ "completed" → (applyStatusUpdate o st now).completed_at = o.completed_at) ∧
      (∀ p ∈ db.orders, p.id ≠ oid → p ∈ db'.orders) := by
  by_cases hleg : ¬(st = "pending" ∨ st = "processing" ∨ st = "completed" ∨
      st = "cancelled")
  · simp [update_order_status, hleg] at hok
  · cases hf : findOrderById db.orders oid with
    | none =>
        simp only [update_order_status] at hok
        rw [if_neg hleg] at hok
        rw [hf] at hok
        simp at hok
    | some o =>
        by_cases ho : applyStatusUpdate o st now = o
        · simp only [update_order_status] at hok
          rw [if_neg hleg] at hok
          rw [hf] at hok
          simp [ho] at hok
        · simp only [update_order_status] at hok
          rw [if_neg hleg] at hok
          rw [hf] at hok
          simp [ho] at hok
          subst hok
          obtain ⟨f1, f2, f3, f4, f5, f6, f7, f8, f9, f10⟩ :=
            applyStatusUpdate_fields o st now
          exact ⟨rfl, rfl, rfl, fun uid => rfl, o, rfl, rfl, f1, f2, f3, f4,
            f5, f6, f7, f8, f9, f10,
            fun p hp hne => mem_replaceFirstOrder_of_ne hp hne⟩

/-- The stored order after cancelling `o9`. -/
def o9cancelled : Order := { o9 with status := "cancelled" }

/-- The state after cancelling order "o1" in `dbC9`. -/
def dbC9cancelled : DB := { dbC9 with orders := [o9cancelled] }

/-- Witness for C9: cancelling order "o1" in `dbC9`. -/
theorem setOrderStatus_frame_witness :
    dbC9cancelled.users = dbC9.users ∧ dbC9cancelled.services = dbC9.services ∧
    dbC9cancelled.transactions = dbC9.transactions ∧
    (∀ uid, userBalance dbC9cancelled uid = userBalance dbC9 uid) ∧
    ∃ o, findOrderById dbC9.orders "o1" = some o ∧
      dbC9cancelled.orders =
        replaceFirstOrder dbC9.orders "o1" (applyStatusUpdate o "cancelled" "t9") ∧
      (applyStatusUpdate o "cancelled" "t9").id = o.id ∧
      (applyStatusUpdate o "cancelled" "t9").user_id = o.user_id ∧
      (applyStatusUpdate o "cancelled" "t9").service_id = o.service_id ∧
      (applyStatusUpdate o "cancelled" "t9").link = o.link ∧
      (applyStatusUpdate o "cancelled" "t9").quantity = o.quantity ∧
      (applyStatusUpdate o "cancelled" "t9").total_cost = o.total_cost ∧
      (applyStatusUpdate o "cancelled" "t9").created_at = o.created_at ∧
      (applyStatusUpdate o "cancelled" "t9").status = "cancelled" ∧
      ("cancelled" = "completed" →
        (applyStatusUpdate o "cancelled" "t9").completed_at = some "t9") ∧
      ("cancelled" ≠ "completed" →
        (applyStatusUpdate o "cancelled" "t9").completed_at = o.completed_at) ∧
      (∀ p ∈ dbC9.orders, p.id ≠ "o1" → p ∈ dbC9cancelled.orders) :=
  setOrderStatus_frame dbC9 dbC9cancelled "o1" "cancelled" "t9"
    (by simp [update_order_status, findOrderById, dbC9, o9, applyStatusUpdate,
      replaceFirstOrder, dbC9cancelled, o9cancelled])

/-! ### C1: serial balance accounting -/

theorem userBalance_some_elim {db : DB} {uid : String} {b : ℚ}
    (h : userBalance db uid = some b) :
    ∃ u, findUser db.users uid = some u ∧ u.balance = b := by
  unfold userBalance at h
  cases hfu : findUser db.users uid with
  | none => rw [hfu] at h; simp at h
  | some u =>
      rw [hfu] at h
      simp only [Option.map_some'] at h
      exact ⟨u, rfl, by injection h⟩

theorem update_order_status_ok_users {db db' : DB} {oid st now : String}
    (hok : update_order_status db oid st now = .ok db') :
    db'.users = db.users := by
  by_cases hleg : ¬(st = "pending" ∨ st = "processing" ∨ st = "completed" ∨
      st = "cancelled")
  · simp [update_order_status, hleg] at hok
  · cases hf : findOrderById db.orders oid with
    | none =>
        simp only [update_order_status] at hok
        rw [if_neg hleg] at hok
        rw [hf] at hok
        simp at hok
    | some o =>
        simp only [update_order_status] at hok
        rw [if_neg hleg] at hok
        rw [hf] at hok
        by_cases ho : applyStatusUpdate o st now = o
        · simp [ho] at hok
        · simp [ho] at hok
          subst hok
          rfl

/-- One serial request changes the user's stored balance by exactly the
deposit amounts it credits minus the order costs it debits. -/
theorem step_userBalance (uid : String) (db : DB) (c : Call) (b : ℚ)
    (h : userBalance db uid = some b) :
    userBalance (step db c) uid =
      some (b + (callCredits db uid c).sum - (callDebits db uid c).sum) := by
  obtain ⟨u₀, hfu₀, hub₀⟩ := userBalance_some_elim h
  cases c with
  | createOrder uid' od nid now =>
      cases hc : create_order db uid' od nid now with
      | error e => simp [step, callCredits, callDebits, hc, h]
      | ok p =>
          obtain ⟨db', o⟩ := p
          obtain ⟨u, s, hfu, hs, hmin, hmax, hcost, huid, hocost, hdb'⟩ :=
            create_order_ok_elim hc
          have hid : u.id = uid' := findUser_id hfu
          have hstep : step db (Call.createOrder uid' od nid now) = db' := by
            simp [step, hc]
          by_cases huu : uid' = uid
          · subst huu
            have hueq : u = u₀ := by rw [hfu] at hfu₀; injection hfu₀
            have ho : o.user_id = uid' := huid.trans hid
            rw [hstep, hdb']
            unfold userBalance create_order_commit
            rw [hid, findUser_incUserBalance_self, hfu]
            simp [callCredits, callDebits, hc, ho, hocost, hueq, hub₀,
              sub_eq_add_neg]
          · have hne : uid ≠ uid' := fun hcontra => huu hcontra.symm
            have ho : ¬o.user_id = uid := by
              rw [huid, hid]; exact fun hcontra => huu hcontra
            rw [hstep, hdb']
            unfold userBalance create_order_commit
            rw [hid, findUser_incUserBalance_ne _ _ hne, hfu₀]
            simp [callCredits, callDebits, hc, ho, hub₀]
  | requestDeposit uid' amt nid now =>
      by_cases ha : amt ≤ 0
      · simp [step, request_deposit, ha, callCredits, callDebits, h]
      · have hstep : step db (Call.requestDeposit uid' amt nid now) =
            { db with transactions := db.transactions ++
                [{ id := nid, user_id := uid', amount := amt, type := "deposit"
                   status := "pending", created_at := now }] } := by
          simp [step, request_deposit, ha]
        rw [hstep]
        unfold userBalance
        rw [hfu₀]
        simp [callCredits, callDebits, hub₀]
  | resolveDeposit tid act =>
      by_cases hact : ¬(act = "approve" ∨ act = "reject")
      · simp [step, approve_deposit, hact, callCredits, callDebits, h]
      · cases hft : findTransaction db.transactions tid with
        | none => simp [step, approve_deposit, hact, hft, callCredits,
            callDebits, h]
        | some t =>
            by_cases hstat : t.status ≠ "pending"
            · simp [step, approve_deposit, hact, hft, hstat, callCredits,
                callDebits, h]
            · rcases not_not.mp hact with rfl | rfl
              · -- action approve: credit of t.amount to t.user_id
                have hstep : step db (Call.resolveDeposit tid "approve") =
                    { db with
                        users := incUserBalance db.users t.user_id t.amount
                        transactions :=
                          setTransactionStatus db.transactions tid "approved" } := by
                  simp [step, approve_deposit, hft, hstat]
                by_cases htu : t.user_id = uid
                · rw [hstep]
                  unfold userBalance
                  rw [htu, findUser_incUserBalance_self, hfu₀]
                  simp [callCredits, callDebits, approve_deposit, hft, hstat,
                    htu, hub₀]
                · have hne : uid ≠ t.user_id := fun hcontra => htu hcontra.symm
                  rw [hstep]
                  unfold userBalance
                  rw [findUser_incUserBalance_ne _ _ hne, hfu₀]
                  simp [callCredits, callDebits, approve_deposit, hft, hstat,
                    htu, hub₀]
              · -- action reject: no balance change
                have hstep : step db (Call.resolveDeposit tid "reject") =
                    { db with transactions :=
                        setTransactionStatus db.transactions tid "rejected" } := by
                  simp [step, approve_deposit, hft, hstat]
                rw [hstep]
                unfold userBalance
                rw [hfu₀]
                simp [callCredits, callDebits, approve_deposit, hft, hstat, hub₀]
  | setOrderStatus oid st now =>
      cases hu : update_order_status db oid st now with
      | error e => simp [step, callCredits, callDebits, hu, h]
      | ok db' =>
          have husers : db'.users = db.users := update_order_status_ok_users hu
          have hbal : userBalance db' uid = userBalance db uid := by
            unfold userBalance; rw [husers]
          simp [step, hu, callCredits, callDebits, hbal, h]

/-- C1: serial execution — for every user, the balance after a sequence of
requests equals the initial balance plus the sum of the deposit amounts
approved for that user minus the sum of the total_cost values of the orders
that user successfully placed; rejected deposits, failed placements, and every
erroring request contribute nothing. -/
theorem serial_balance_accounting (uid : String) (db : DB) (cs : List Call)
    (b₀ : ℚ) (h : userBalance db uid = some b₀) :
    userBalance (runAudit uid db cs).1 uid =
      some (b₀ + (runAudit uid db cs).2.1.sum - (runAudit uid db cs).2.2.sum) := by
  induction cs generalizing db b₀ with
  | nil => simpa [runAudit] using h
  | cons c cs ih =>
      have hstep := step_userBalance uid db c b₀ h
      have hih := ih (step db c) _ hstep
      simp only [runAudit, List.sum_append]
      rw [hih]
      exact congrArg some (by ring)

/-- Witness for C1: starting from balance 1.25, approving the 2.5 deposit and
then placing the 1.25 order. -/
theorem serial_balance_accounting_witness :
    userBalance (runAudit "u1" dbWithTxn
        [Call.resolveDeposit "tx1" "approve",
         Call.createOrder "u1" sampleOrderCreate "o1" "t1"]).1 "u1" =
      some (5/4 +
        (runAudit "u1" dbWithTxn
          [Call.resolveDeposit "tx1" "approve",
           Call.createOrder "u1" sampleOrderCreate "o1" "t1"]).2.1.sum -
        (runAudit "u1" dbWithTxn
          [Call.resolveDeposit "tx1" "approve",
           Call.createOrder "u1" sampleOrderCreate "o1" "t1"]).2.2.sum) :=
  serial_balance_accounting "u1" dbWithTxn
    [Call.resolveDeposit "tx1" "approve",
     Call.createOrder "u1" sampleOrderCreate "o1" "t1"] (5/4) (by rfl)
